import Mathlib

/-!
# Verification of the cargUI Job Supervision Engine

A shallow embedding of the core of `src/main.rs` of the cargUI repository:
the command catalog, job-queue construction (`run_selection`), the
single-active-run guard (`CommandRunner::start`), per-job command-line
assembly (`build_full_command`), sequential queue execution with
fail-fast and cooperative cancellation (`run_queue`), and process
supervision (`spawn_and_stream`).

Stateful and concurrent behaviour is modelled by explicit state passing:
the cancellation flag and the UI weak-reference liveness are oracles
indexed by a read counter (`cancel : Nat → Bool`, `uiAlive : Nat → Bool`)
that the model threads through every atomic read / hand-off attempt, and
each external process's behaviour is an oracle record (`JobBehavior`).
Every UI hand-off the worker attempts is recorded in an event trace.
-/

namespace CargUI

/-- Characters used by the tokenizer, named to keep literals simple. -/
def squote : Char := Char.ofNat 39

def dquote : Char := Char.ofNat 34

def bslash : Char := Char.ofNat 92

/-- `CommandSpec` from `main.rs`: one catalog entry. -/
structure CommandSpec where
  label : String
  subcommand : String
  supports_release : Bool
  allows_program_args : Bool
deriving Repr, DecidableEq

/-- `CommandGroup` from `main.rs`. -/
inductive CommandGroup where
  | primary
  | secondary
deriving Repr, DecidableEq

/-- `SelectedCommand` from `main.rs`: one user-selection entry. -/
structure SelectedCommand where
  group : CommandGroup
  index : Nat
deriving Repr, DecidableEq

/-- `QueuedCommand` from `main.rs`: one job of a run's queue. -/
structure QueuedCommand where
  display_name : String
  fragments : List String
  supports_release : Bool
  allows_program_args : Bool
deriving Repr, DecidableEq

/-- The `primary_specs` catalog built in `AppController::new`. -/
def primary_specs : List CommandSpec :=
  [⟨"Build", "build", true, false⟩,
   ⟨"Run", "run", true, true⟩]

/-- The `secondary_specs` catalog built in `AppController::new`. -/
def secondary_specs : List CommandSpec :=
  [⟨"Check", "check", true, false⟩,
   ⟨"Test", "test", true, true⟩,
   ⟨"Fmt", "fmt", false, false⟩,
   ⟨"Clean", "clean", false, false⟩,
   ⟨"Doc", "doc", true, false⟩,
   ⟨"Clippy", "clippy", true, false⟩,
   ⟨"Update", "update", false, false⟩]

/-- `AppController::spec_for`: catalog lookup by group and index. -/
def spec_for (primary secondary : List CommandSpec) (sel : SelectedCommand) :
    Option CommandSpec :=
  match sel.group with
  | .primary => primary[sel.index]?
  | .secondary => secondary[sel.index]?

/-- `build_full_command` from `main.rs`: per-job final argument vector,
assembled at execution time. -/
def build_full_command (command : QueuedCommand) (release_selected : Bool)
    (cargo_args program_args : List String) : List String := Id.run do
  let mut args := command.fragments
  if release_selected && command.supports_release then
    args := args ++ ["--release"]
  args := args ++ cargo_args
  if command.allows_program_args && !program_args.isEmpty then
    args := args ++ ("--" :: program_args)
  return args

/-- State of the shell-word splitter. -/
inductive SplitState where
  | delimiter
  | afterBackslash
  | unquoted
  | unquotedBackslash
  | singleQuoted
  | doubleQuoted
  | doubleQuotedBackslash
deriving Repr, DecidableEq

/-- Modelled from the spec: the body of `ArgumentSource.tokenize`
(the `shell_words::split` library call used by `main.rs`, which is not
part of this repository). Per the spec it performs shell-word splitting
with quoting, fails on malformed quoting, and maps empty or
whitespace-only text to an empty sequence. Implemented as the standard
POSIX-style word-splitting automaton over the character list: blanks
delimit words, single quotes quote verbatim, double quotes quote with
backslash escapes, backslashes escape the next character, and an
unterminated quote is a lex error (`none`). -/
def splitLoop : List Char → SplitState → List Char → List String →
    Option (List String)
  | [], .delimiter, _, words => some words
  | [], .afterBackslash, w, words => some (words ++ [String.mk (w ++ [bslash])])
  | [], .unquoted, w, words => some (words ++ [String.mk w])
  | [], .unquotedBackslash, w, words => some (words ++ [String.mk (w ++ [bslash])])
  | [], .singleQuoted, _, _ => none
  | [], .doubleQuoted, _, _ => none
  | [], .doubleQuotedBackslash, _, _ => none
  | c :: rest, .delimiter, w, words =>
    if c = squote then splitLoop rest .singleQuoted w words
    else if c = dquote then splitLoop rest .doubleQuoted w words
    else if c = bslash then splitLoop rest .afterBackslash w words
    else if c = ' ' ∨ c = '\t' ∨ c = '\n' then splitLoop rest .delimiter w words
    else splitLoop rest .unquoted (w ++ [c]) words
  | c :: rest, .afterBackslash, w, words =>
    if c = '\n' then splitLoop rest .delimiter w words
    else splitLoop rest .unquoted (w ++ [c]) words
  | c :: rest, .unquoted, w, words =>
    if c = squote then splitLoop rest .singleQuoted w words
    else if c = dquote then splitLoop rest .doubleQuoted w words
    else if c = bslash then splitLoop rest .unquotedBackslash w words
    else if c = ' ' ∨ c = '\t' ∨ c = '\n' then
      splitLoop rest .delimiter [] (words ++ [String.mk w])
    else splitLoop rest .unquoted (w ++ [c]) words
  | c :: rest, .unquotedBackslash, w, words =>
    if c = '\n' then splitLoop rest .unquoted w words
    else splitLoop rest .unquoted (w ++ [c]) words
  | c :: rest, .singleQuoted, w, words =>
    if c = squote then splitLoop rest .unquoted w words
    else splitLoop rest .singleQuoted (w ++ [c]) words
  | c :: rest, .doubleQuoted, w, words =>
    if c = dquote then splitLoop rest .unquoted w words
    else if c = bslash then splitLoop rest .doubleQuotedBackslash w words
    else splitLoop rest .doubleQuoted (w ++ [c]) words
  | c :: rest, .doubleQuotedBackslash, w, words =>
    if c = dquote ∨ c = bslash then splitLoop rest .doubleQuoted (w ++ [c]) words
    else if c = '\n' then splitLoop rest .doubleQuoted w words
    else splitLoop rest .doubleQuoted (w ++ [bslash, c]) words

/-- Modelled from the spec: `ArgumentSource.tokenize` (`shell_words::split`
in `main.rs`); `none` is the lex error. -/
def split (text : String) : Option (List String) :=
  splitLoop text.data .delimiter [] []

/-- The `text.trim().is_empty()` test of `main.rs`: the trimmed string is
empty exactly when every character is whitespace (ASCII whitespace here;
the strings of this development are ASCII). -/
def blank (text : String) : Bool :=
  text.data.all fun c => c = ' ' ∨ c = '\t' ∨ c = '\n' ∨ c = '\r'

/-- `parse_args` from `main.rs`: blank text parses to no arguments,
anything else goes through the tokenizer. -/
def parse_args (text : String) : Option (List String) :=
  if blank text then some []
  else split text

/-- The leading-token strip of `run_selection`: drop the first token when
it is exactly the tool's own invocation name. -/
def strip_cargo_token (parts : List String) : List String :=
  if parts.head? = some "cargo" then parts.tail else parts

/-- The job built from one catalog descriptor in `run_selection`. -/
def jobOfSpec (spec : CommandSpec) : QueuedCommand :=
  ⟨spec.subcommand, [spec.subcommand], spec.supports_release,
   spec.allows_program_args⟩

/-- Queue-construction failures of `run_selection` (each is reported to
the UI as a line plus a status in `main.rs`). -/
inductive BuildErr where
  | invalidCustomCommand
  | emptyCustomCommand
  | noCommandSelected
deriving Repr, DecidableEq

/-- The queue-construction portion of `AppController::run_selection`:
custom text is consulted only when the selection is empty, each selected
descriptor contributes one job in selection order, and an empty queue
falls back to the default "run" entry of the primary catalog. -/
def run_selection_build (primary secondary : List CommandSpec)
    (selection : List SelectedCommand) (customText : String) :
    Except BuildErr (List QueuedCommand) :=
  let hasSelection := !selection.isEmpty
  let customPart : Except BuildErr (List QueuedCommand) :=
    if hasSelection then .ok []
    else if blank customText then .ok []
    else
      match split customText with
      | none => .error .invalidCustomCommand
      | some parts =>
        let fragments := strip_cargo_token parts
        if fragments.isEmpty then .error .emptyCustomCommand
        else .ok [⟨String.intercalate " " fragments, fragments, false, true⟩]
  match customPart with
  | .error e => .error e
  | .ok base =>
    let queue :=
      base ++ selection.filterMap
        (fun sel => (spec_for primary secondary sel).map jobOfSpec)
    if queue.isEmpty then
      match primary.find? (fun spec => spec.subcommand = "run") with
      | some runSpec => .ok [jobOfSpec runSpec]
      | none => .error .noCommandSelected
    else .ok queue

/-- Failures of `CommandRunner::start`. -/
inductive StartErr where
  | noCommandsSelected
  | alreadyRunning
deriving Repr, DecidableEq

/-- `ActiveRun` from `main.rs`: the live state of the one running session.
The `child` slot abstracts the process handle as an opaque id; `progress`
abstracts the worker thread's position in the queue. -/
structure ActiveRun where
  cancel : Bool
  child : Option Nat
  progress : Nat
deriving Repr, DecidableEq

/-- `CommandRunner::start`: check-and-set on the single session slot.
Returns the outcome together with the slot's new contents. -/
def CommandRunner.start (active : Option ActiveRun)
    (queue : List QueuedCommand) : Except StartErr Unit × Option ActiveRun :=
  if queue.isEmpty then (.error .noCommandsSelected, active)
  else
    match active with
    | some a => (.error .alreadyRunning, some a)
    | none => (.ok (), some { cancel := false, child := none, progress := 0 })

/-- Failures reported by `run_selection` before a run starts. -/
inductive RunSelErr where
  | invalidCargoArgs
  | invalidProgramArgs
  | build (e : BuildErr)
  | start (e : StartErr)
deriving Repr, DecidableEq

/-- `AppController::run_selection` end to end: parse the two argument
boxes, build the queue, and hand it to `CommandRunner::start`; on any
failure the session slot is left as it was and no run starts. -/
def run_selection (active : Option ActiveRun)
    (primary secondary : List CommandSpec) (selection : List SelectedCommand)
    (cargoArgsText programArgsText customText : String) :
    Option ActiveRun × Option RunSelErr :=
  match parse_args cargoArgsText with
  | none => (active, some .invalidCargoArgs)
  | some _ =>
    match parse_args programArgsText with
    | none => (active, some .invalidProgramArgs)
    | some _ =>
      match run_selection_build primary secondary selection customText with
      | .error e => (active, some (.build e))
      | .ok queue =>
        match CommandRunner.start active queue with
        | (.error e, st) => (st, some (.start e))
        | (.ok _, st) => (st, none)

/-- The release notice of `run_queue`. -/
def info_line (dn : String) : String :=
  s!"ℹ ignoring --release for cargo {dn}"

/-- The per-job progress status of `run_queue`. -/
def progress_status (pos total : Nat) (dn : String) : String :=
  s!"[{pos}/{total}] cargo {dn}"

/-- The success summary line of `run_queue`. -/
def success_line (dn : String) : String :=
  s!"✔ cargo {dn} completed"

/-- The non-success exit summary line of `run_queue`. -/
def exit_fail_line (dn descr : String) : String :=
  s!"✖ cargo {dn} exited with status {descr}"

/-- The spawn/stream failure line of `run_queue`. -/
def spawn_fail_line (dn msg : String) : String :=
  s!"⚠ failed to run cargo {dn}: {msg}"

/-- The failure status of `run_queue`. -/
def failed_status (msg : String) : String :=
  s!"Failed: {msg}"

/-- The initial status of `run_queue`. -/
def running_status (total : Nat) : String :=
  s!"Running {total} command(s)…"

/-- The stderr line prefix applied by `spawn_and_stream`. -/
def stderr_line (l : String) : String :=
  s!"[stderr] {l}"

/-- One UI mutation performed inside an `upgrade_in_event_loop` closure. -/
inductive UIAction where
  | setRunning (b : Bool)
  | setOutput (s : String)
  | appendLine (s : String)
  | setStatus (s : String)
deriving Repr, DecidableEq

/-- One attempted hand-off to the Observer (`upgrade_in_event_loop` call):
the actions of its closure, whether the weak reference was still alive
(delivery succeeded), and which job (by queue index) it belongs to
(`none` for run-level hand-offs). -/
structure HandOff where
  actions : List UIAction
  delivered : Bool
  job : Option Nat
deriving Repr, DecidableEq

/-- An `ExitStatus`: success bit plus its `Display` rendering. -/
structure ExitSt where
  success : Bool
  descr : String
deriving Repr, DecidableEq

/-- Oracle describing how the external process of one job behaves: the
OS outcome of `spawn`, presence of the two pipes, the line items each
reader loop sees (`none` is a non-decodable chunk, which ends that
loop), whether the handle slot is empty when `wait` reclaims it, and the
outcome of `wait`. -/
structure JobBehavior where
  spawnErr : Option String
  hasStdout : Bool
  hasStderr : Bool
  stdoutLines : List (Option String)
  stderrLines : List (Option String)
  childMissingAtWait : Bool
  waitErr : Option String
  exitStatus : ExitSt
deriving Repr, DecidableEq

/-- A job behaviour whose `spawn_and_stream` call cannot end in a
successful exit: spawn or stream setup fails, the wait fails, or the
process exits with a non-success status. -/
def JobBehavior.failing (b : JobBehavior) : Bool :=
  b.spawnErr.isSome || !b.hasStdout || !b.hasStderr ||
    b.childMissingAtWait || b.waitErr.isSome || !b.exitStatus.success

/-- Failures of `spawn_and_stream`, with the message text `main.rs`
renders for each (`anyhow` shows the outermost context). -/
inductive SpawnStreamErr where
  | spawnFailed (display msg : String)
  | missingStdoutPipe
  | missingStderrPipe
  | childMissing
  | waitFailed (msg : String)
deriving Repr, DecidableEq

/-- The `Display` text of a `spawn_and_stream` failure. -/
def SpawnStreamErr.message : SpawnStreamErr → String
  | .spawnFailed display _ => s!"spawning cargo {display}"
  | .missingStdoutPipe => "missing stdout pipe"
  | .missingStderrPipe => "missing stderr pipe"
  | .childMissing => "child process missing"
  | .waitFailed msg => msg

/-- One stream-reading loop of `spawn_and_stream`: for each line item,
read the cancellation flag (consuming one read tick `t`); stop if it is
set or the item is malformed, otherwise attempt one hand-off of the
rendered line (consuming one hand-off tick `u`). Returns the hand-offs
plus the final ticks. -/
def reader_loop (mk : String → String) (jobIdx : Nat)
    (cancel uiAlive : Nat → Bool) :
    List (Option String) → Nat → Nat → List HandOff × Nat × Nat
  | [], t, u => ([], t, u)
  | item :: rest, t, u =>
    if cancel t then ([], t + 1, u)
    else
      match item with
      | some line =>
        let r := reader_loop mk jobIdx cancel uiAlive rest (t + 1) (u + 1)
        (⟨[.appendLine (mk line)], uiAlive u, some jobIdx⟩ :: r.1, r.2)
      | none => ([], t + 1, u)

/-- Result of one `spawn_and_stream` call: the returned value, the line
hand-offs its reader loops attempted, whether the two reader threads
were started, whether each was joined before the function returned, and
the final read / hand-off ticks. -/
structure SASResult where
  result : Except SpawnStreamErr ExitSt
  events : List HandOff
  threadsStarted : Bool
  joinedStdout : Bool
  joinedStderr : Bool
  tEnd : Nat
  uEnd : Nat
deriving Repr

/-- `spawn_and_stream` from `main.rs`: spawn the process, take the two
pipes, start the two reader loops, reclaim the handle and wait, then
join the readers. Mirrors the control flow of the source: the error
returns taken after the readers are started (empty handle slot, `wait`
failure) leave the function through `?` before the two `join` calls. -/
def spawn_and_stream (_args : List String) (display : String) (jobIdx : Nat)
    (beh : JobBehavior) (cancel uiAlive : Nat → Bool) (t u : Nat) :
    SASResult :=
  match beh.spawnErr with
  | some msg => ⟨.error (.spawnFailed display msg), [], false, false, false, t, u⟩
  | none =>
    if !beh.hasStdout then
      ⟨.error .missingStdoutPipe, [], false, false, false, t, u⟩
    else if !beh.hasStderr then
      ⟨.error .missingStderrPipe, [], false, false, false, t, u⟩
    else
      let outR := reader_loop id jobIdx cancel uiAlive beh.stdoutLines t u
      let errR := reader_loop stderr_line jobIdx cancel uiAlive
        beh.stderrLines outR.2.1 outR.2.2
      let events := outR.1 ++ errR.1
      if beh.childMissingAtWait then
        ⟨.error .childMissing, events, true, false, false, errR.2.1, errR.2.2⟩
      else
        match beh.waitErr with
        | some msg =>
          ⟨.error (.waitFailed msg), events, true, false, false, errR.2.1, errR.2.2⟩
        | none =>
          ⟨.ok beh.exitStatus, events, true, true, true, errR.2.1, errR.2.2⟩

/-- Result of the queue loop of `run_queue`: attempted hand-offs, the
indices of jobs for which `spawn_and_stream` was invoked, the hand-off
ticks whose delivery outcome the loop inspected (the per-job status
updates), and the final ticks. -/
structure LoopResult where
  events : List HandOff
  attempted : List Nat
  checked : List Nat
  tEnd : Nat
  uEnd : Nat
deriving Repr, DecidableEq

/-- The `for (idx, command) in queue.iter().enumerate()` loop of
`run_queue`: per job, read the cancellation flag (stop if set), emit the
release notice when release mode is selected but unsupported, attempt
the progress-status hand-off (stop if the Observer is gone), run
`spawn_and_stream`, report its outcome, and fail fast on any non-success
outcome. -/
def run_queue_loop (rel : Bool) (cargoArgs progArgs : List String)
    (beh : Nat → JobBehavior) (cancel uiAlive : Nat → Bool) (total : Nat) :
    List QueuedCommand → Nat → Nat → Nat → LoopResult
  | [], _, t, u => ⟨[], [], [], t, u⟩
  | cmd :: rest, idx, t, u =>
    if cancel t then ⟨[], [], [], t + 1, u⟩
    else
      let dn := cmd.display_name
      let args := build_full_command cmd rel cargoArgs progArgs
      let infoEvents : List HandOff :=
        if rel && !cmd.supports_release then
          [⟨[.appendLine (info_line dn)], uiAlive u, some idx⟩]
        else []
      let u1 := if rel && !cmd.supports_release then u + 1 else u
      let statusHO : HandOff :=
        ⟨[.setStatus (progress_status (idx + 1) total dn)], uiAlive u1, some idx⟩
      if !uiAlive u1 then
        ⟨infoEvents ++ [statusHO], [], [u1], t + 1, u1 + 1⟩
      else
        let sas := spawn_and_stream args dn idx (beh idx) cancel uiAlive
          (t + 1) (u1 + 1)
        match sas.result with
        | .ok st =>
          let summary :=
            if st.success then success_line dn
            else exit_fail_line dn st.descr
          let sumHO : HandOff := ⟨[.appendLine summary], uiAlive sas.uEnd, some idx⟩
          if st.success then
            let r := run_queue_loop rel cargoArgs progArgs beh cancel uiAlive
              total rest (idx + 1) sas.tEnd (sas.uEnd + 1)
            ⟨infoEvents ++ [statusHO] ++ sas.events ++ [sumHO] ++ r.events,
              idx :: r.attempted, u1 :: r.checked, r.tEnd, r.uEnd⟩
          else
            ⟨infoEvents ++ [statusHO] ++ sas.events ++ [sumHO], [idx], [u1],
              sas.tEnd, sas.uEnd + 1⟩
        | .error e =>
          let failHO : HandOff :=
            ⟨[.appendLine (spawn_fail_line dn e.message),
              .setStatus (failed_status e.message)], uiAlive sas.uEnd, some idx⟩
          ⟨infoEvents ++ [statusHO] ++ sas.events ++ [failHO], [idx], [u1],
            sas.tEnd, sas.uEnd + 1⟩

/-- Result of one whole `run_queue` call. `earlyReturn` marks the return
taken when the initial hand-off finds the Observer gone; `finalStatus`
is the status text of the final hand-off, when one is attempted. -/
structure RunResult where
  events : List HandOff
  attempted : List Nat
  checked : List Nat
  earlyReturn : Bool
  finalStatus : Option String
  tEnd : Nat
  uEnd : Nat
deriving Repr, DecidableEq

/-- `run_queue` from `main.rs`: the initial running/clear/status
notification (return if it fails), the job loop, then the final read of
the cancellation flag and the final running/status hand-off. -/
def run_queue (queue : List QueuedCommand) (cargoArgs progArgs : List String)
    (rel : Bool) (beh : Nat → JobBehavior) (cancel uiAlive : Nat → Bool) :
    RunResult :=
  let total := queue.length
  let initHO : HandOff :=
    ⟨[.setRunning true, .setOutput "", .setStatus (running_status total)],
      uiAlive 0, none⟩
  if !uiAlive 0 then ⟨[initHO], [], [0], true, none, 0, 1⟩
  else
    let r := run_queue_loop rel cargoArgs progArgs beh cancel uiAlive total
      queue 0 0 1
    let cancelled := cancel r.tEnd
    let statusText := if cancelled then "Cancelled" else "Idle"
    let finalHO : HandOff :=
      ⟨[.setRunning false, .setStatus statusText], uiAlive r.uEnd, none⟩
    ⟨initHO :: (r.events ++ [finalHO]), r.attempted, 0 :: r.checked, false,
      some statusText, r.tEnd + 1, r.uEnd + 1⟩

/-- The body of the `cargo-runner` worker thread spawned by
`CommandRunner::start`: run the queue, then unconditionally clear the
session slot (`slot.take()`), whatever the run's outcome was. -/
def worker_body (queue : List QueuedCommand) (cargoArgs progArgs : List String)
    (rel : Bool) (beh : Nat → JobBehavior) (cancel uiAlive : Nat → Bool) :
    RunResult × Option ActiveRun :=
  (run_queue queue cargoArgs progArgs rel beh cancel uiAlive, none)

/-! ## Helper lemmas and witness material -/

/-- A process behaviour that spawns, streams nothing, and exits
successfully. -/
def behOk : JobBehavior :=
  ⟨none, true, true, [], [], false, none, ⟨true, "exit status: 0"⟩⟩

/-- A process behaviour that spawns and exits with a non-success
status. -/
def behFail : JobBehavior :=
  ⟨none, true, true, [], [], false, none, ⟨false, "exit status: 101"⟩⟩

/-- A process behaviour whose `wait` call fails after the reader threads
run. -/
def behWaitFail : JobBehavior :=
  ⟨none, true, true, [], [], false, some "wait failed", ⟨true, "exit status: 0"⟩⟩

theorem length_filterMap_of_isSome {α β : Type} (f : α → Option β) :
    ∀ l : List α, (∀ x ∈ l, (f x).isSome) → (l.filterMap f).length = l.length := by
  intro l
  induction l with
  | nil => intro _; rfl
  | cons x xs ih =>
    intro h
    obtain ⟨b, hb⟩ := Option.isSome_iff_exists.mp (h x (List.mem_cons_self x xs))
    simp [List.filterMap_cons, hb, ih fun y hy => h y (List.mem_cons_of_mem x hy)]

/-- `CommandRunner.start` never alters an occupied session slot. -/
theorem start_snd (a : ActiveRun) (q : List QueuedCommand) :
    (CommandRunner.start (some a) q).2 = some a := by
  simp only [CommandRunner.start]
  split <;> rfl

/-- Every queue `run_selection_build` accepts is non-empty. -/
theorem run_selection_build_ne_nil (p s : List CommandSpec)
    (sel : List SelectedCommand) (t : String) (q : List QueuedCommand)
    (h : run_selection_build p s sel t = .ok q) : q ≠ [] := by
  simp only [run_selection_build] at h
  split at h
  · cases h
  · next base heq =>
    split at h
    · split at h
      · injection h with h'
        subst h'
        simp
      · cases h
    · next hbase =>
      injection h with h'
      subst h'
      simpa using hbase

/-- With an empty selection, every queue `run_selection_build` accepts
has exactly one job (the custom-text job or the default fallback). -/
theorem run_selection_build_singleton (p s : List CommandSpec) (t : String)
    (q : List QueuedCommand) (h : run_selection_build p s [] t = .ok q) :
    q.length = 1 := by
  simp only [run_selection_build, List.filterMap_nil, List.append_nil,
    List.isEmpty_nil, Bool.not_true, Bool.false_eq_true, if_false] at h
  split at h
  · cases h
  · next base heq =>
    split at h
    · split at h
      · injection h with h'
        subst h'
        rfl
      · cases h
    · next hbase =>
      injection h with h'
      subst h'
      split at heq
      · injection heq with h2
        rw [← h2] at hbase
        simp at hbase
      · split at heq
        · cases heq
        · split at heq
          · cases heq
          · injection heq with h2
            rw [← h2]
            rfl

/-! ## Claims -/

/-- C1: for every job and every combination of the two booleans, the
final argument vector built at execution time equals: the job's
`fragments`, then the token `"--release"` exactly when release is
selected and the job supports it, then the cargo-level extra arguments
verbatim, then the separator `"--"` followed by the program-level extra
arguments verbatim exactly when the job allows trailing arguments and
the program-argument list is non-empty.  When release is selected but
unsupported, the job's processing step emits the informational line
first and still runs the job (it is not failed); otherwise no such line
is emitted before the status update.  The §8 scenario for Build and Test
is included as a concrete anchor. -/
theorem release_flag_and_trailing_args_assembly
    (cmd : QueuedCommand) (rel : Bool) (cargoArgs progArgs : List String)
    (rest : List QueuedCommand) (beh : Nat → JobBehavior)
    (cancel uiAlive : Nat → Bool) (total idx t u : Nat)
    (hc : cancel t = false) :
    build_full_command cmd rel cargoArgs progArgs =
      cmd.fragments
        ++ (if rel && cmd.supports_release then ["--release"] else [])
        ++ cargoArgs
        ++ (if cmd.allows_program_args && !progArgs.isEmpty then "--" :: progArgs
            else [])
    ∧ ((rel && !cmd.supports_release) = true →
        (run_queue_loop rel cargoArgs progArgs beh cancel uiAlive total
          (cmd :: rest) idx t u).events.head? =
        some ⟨[.appendLine (info_line cmd.display_name)], uiAlive u, some idx⟩)
    ∧ ((rel && !cmd.supports_release) = false →
        (run_queue_loop rel cargoArgs progArgs beh cancel uiAlive total
          (cmd :: rest) idx t u).events.head? =
        some ⟨[.setStatus (progress_status (idx + 1) total cmd.display_name)],
          uiAlive u, some idx⟩)
    ∧ (uiAlive (if rel && !cmd.supports_release then u + 1 else u) = true →
        idx ∈ (run_queue_loop rel cargoArgs progArgs beh cancel uiAlive total
          (cmd :: rest) idx t u).attempted)
    ∧ build_full_command ⟨"build", ["build"], true, false⟩ true ["--quiet"]
        ["--nocapture"] = ["build", "--release", "--quiet"]
    ∧ build_full_command ⟨"test", ["test"], true, true⟩ true ["--quiet"]
        ["--nocapture"] =
        ["test", "--release", "--quiet", "--", "--nocapture"] := by
  refine ⟨?_, ?_, ?_, ?_, by rfl, by rfl⟩
  · simp only [build_full_command, Id.run]
    split <;> split <;> simp
  · intro hinfo
    simp only [run_queue_loop]
    simp only [hc, hinfo, Bool.false_eq_true, if_false, if_true]
    split
    · simp
    · split
      · split <;> simp
      · simp
  · intro hinfo
    simp only [run_queue_loop]
    simp only [hc, hinfo, Bool.false_eq_true, if_false, if_true]
    split
    · simp
    · split
      · split <;> simp
      · simp
  · intro hui
    simp only [run_queue_loop]
    simp only [hc, Bool.false_eq_true, if_false]
    rcases hrel : (rel && !cmd.supports_release) with _ | _
    · rw [hrel] at hui
      simp only [Bool.false_eq_true, if_false] at hui
      simp only [hrel, Bool.false_eq_true, if_false, hui, Bool.not_true,
        Bool.true_eq_false]
      split
      · split <;> simp
      · simp
    · rw [hrel] at hui
      simp only [if_true] at hui
      simp only [hrel, if_true, hui, Bool.not_true, Bool.false_eq_true, if_false]
      split
      · split <;> simp
      · simp

/-- Witness for C1 at a concrete job that does not support release mode,
with release selected, the cancellation flag clear and the Observer
alive. -/
theorem release_flag_and_trailing_args_assembly_witness :
    build_full_command ⟨"fmt", ["fmt"], false, true⟩ true ["--quiet"] ["--check"] =
      ["fmt"] ++ [] ++ ["--quiet"] ++ ("--" :: ["--check"])
    ∧ (run_queue_loop true ["--quiet"] ["--check"] (fun _ => behOk)
        (fun _ => false) (fun _ => true) 1
        [⟨"fmt", ["fmt"], false, true⟩] 0 0 0).events.head? =
      some ⟨[.appendLine (info_line "fmt")], true, some 0⟩
    ∧ 0 ∈ (run_queue_loop true ["--quiet"] ["--check"] (fun _ => behOk)
        (fun _ => false) (fun _ => true) 1
        [⟨"fmt", ["fmt"], false, true⟩] 0 0 0).attempted := by
  have h := release_flag_and_trailing_args_assembly
    ⟨"fmt", ["fmt"], false, true⟩ true ["--quiet"] ["--check"] []
    (fun _ => behOk) (fun _ => false) (fun _ => true) 1 0 0 0 (by rfl)
  exact ⟨h.1, h.2.1 (by rfl), h.2.2.2.1 (by rfl)⟩

/-- C2: when the selection set is non-empty (and its entries resolve in
the catalog, as every UI-produced selection does), the constructed queue
is exactly one job per selected descriptor in user-selection order, the
custom text contributes nothing (any two custom texts give the same
result), and with an empty selection the queue is always a single job —
so no queue ever contains both a custom-text job and a
selection-derived job. -/
theorem selection_queue_exact_and_custom_ignored
    (p s : List CommandSpec) (sel : List SelectedCommand) (t1 t2 : String)
    (hsel : sel ≠ [])
    (hres : ∀ x ∈ sel, (spec_for p s x).isSome) :
    run_selection_build p s sel t1 =
      .ok (sel.filterMap fun x => (spec_for p s x).map jobOfSpec)
    ∧ (sel.filterMap fun x => (spec_for p s x).map jobOfSpec).length = sel.length
    ∧ run_selection_build p s sel t1 = run_selection_build p s sel t2
    ∧ (∀ t q, run_selection_build p s [] t = .ok q → q.length = 1) := by
  rcases sel with _ | ⟨x, xs⟩
  · exact absurd rfl hsel
  obtain ⟨b, hb⟩ := Option.isSome_iff_exists.mp (hres x (List.mem_cons_self x xs))
  refine ⟨?_, ?_, ?_, fun t q h => run_selection_build_singleton p s t q h⟩
  · simp [run_selection_build, List.filterMap_cons, hb]
  · refine length_filterMap_of_isSome _ _ fun y hy => ?_
    obtain ⟨c, hc⟩ := Option.isSome_iff_exists.mp (hres y hy)
    simp [hc]
  · simp [run_selection_build, List.filterMap_cons, hb]

/-- Witness for C2 at the selection Build-then-Test with two different
custom texts. -/
theorem selection_queue_exact_and_custom_ignored_witness :
    run_selection_build primary_specs secondary_specs
      [⟨.primary, 0⟩, ⟨.secondary, 1⟩] "cargo fmt" =
      .ok [⟨"build", ["build"], true, false⟩, ⟨"test", ["test"], true, true⟩]
    ∧ run_selection_build primary_specs secondary_specs
        [⟨.primary, 0⟩, ⟨.secondary, 1⟩] "cargo fmt" =
      run_selection_build primary_specs secondary_specs
        [⟨.primary, 0⟩, ⟨.secondary, 1⟩] "clippy --fix" := by
  have h := selection_queue_exact_and_custom_ignored primary_specs
    secondary_specs [⟨.primary, 0⟩, ⟨.secondary, 1⟩] "cargo fmt" "clippy --fix"
    (by simp) (by decide)
  exact ⟨h.1, h.2.2.1⟩

/-- C3: with an empty selection and non-blank custom text, the text is
tokenized, a leading tool-name token is dropped, and the remaining
tokens become one job's fragments verbatim with `supports_release =
false` and `allows_program_args = true`; in particular the custom text
"cargo fmt -- --check" yields the fragments ["fmt", "--", "--check"].
If no token remains after stripping, construction fails with the
empty-custom-command error and `run_selection` starts no run (the
session slot is untouched). -/
theorem custom_text_tokenization_and_empty_failure :
    run_selection_build primary_specs secondary_specs [] "cargo fmt -- --check" =
      .ok [⟨"fmt -- --check", ["fmt", "--", "--check"], false, true⟩]
    ∧ (∀ (p s : List CommandSpec) (text : String) (parts : List String),
        split text = some parts → blank text = false →
        strip_cargo_token parts ≠ [] →
        run_selection_build p s [] text =
          .ok [⟨String.intercalate " " (strip_cargo_token parts),
            strip_cargo_token parts, false, true⟩])
    ∧ (∀ (p s : List CommandSpec) (text : String) (parts : List String),
        split text = some parts → blank text = false →
        strip_cargo_token parts = [] →
        run_selection_build p s [] text = .error .emptyCustomCommand)
    ∧ (∀ (a : Option ActiveRun) (p s : List CommandSpec) (text : String),
        run_selection_build p s [] text = .error .emptyCustomCommand →
        run_selection a p s [] "" "" text =
          (a, some (.build .emptyCustomCommand))) := by
  refine ⟨by rfl, ?_, ?_, ?_⟩
  · intro p s text parts hsp hb hfrag
    simp [run_selection_build, hb, hsp, hfrag]
  · intro p s text parts hsp hb hfrag
    simp [run_selection_build, hb, hsp, hfrag]
  · intro a p s text h
    simp [run_selection, parse_args, blank, h]

/-- Witness for C3 at the custom text "cargo", which strips to nothing. -/
theorem custom_text_tokenization_and_empty_failure_witness :
    run_selection_build primary_specs secondary_specs [] "cargo" =
      .error .emptyCustomCommand
    ∧ run_selection none primary_specs secondary_specs [] "" "" "cargo" =
      (none, some (.build .emptyCustomCommand)) := by
  have h := custom_text_tokenization_and_empty_failure
  have h1 := h.2.2.1 primary_specs secondary_specs "cargo" ["cargo"]
    (by rfl) (by rfl) (by rfl)
  exact ⟨h1, h.2.2.2 none primary_specs secondary_specs "cargo" h1⟩

/-- C4: with an empty selection and blank (empty or whitespace-only)
custom text, the queue is the single default job for the catalog's
default "run" action when the primary catalog holds one — in this
program it does, yielding the job for "run" — and when no such action
exists, construction fails with the no-command-selected error and
`run_selection` starts no run. -/
theorem empty_inputs_default_run_fallback (text : String)
    (ht : blank text = true) :
    run_selection_build primary_specs secondary_specs [] text =
      .ok [⟨"run", ["run"], true, true⟩]
    ∧ (∀ p s : List CommandSpec,
        p.find? (fun spec => spec.subcommand = "run") = some ⟨"Run", "run", true, true⟩ →
        run_selection_build p s [] text = .ok [⟨"run", ["run"], true, true⟩])
    ∧ (∀ p s : List CommandSpec,
        p.find? (fun spec => spec.subcommand = "run") = none →
        run_selection_build p s [] text = .error .noCommandSelected
        ∧ ∀ a : Option ActiveRun,
          run_selection a p s [] "" "" text =
            (a, some (.build .noCommandSelected))) := by
  refine ⟨?_, ?_, ?_⟩
  · simp [run_selection_build, ht]
    rfl
  · intro p s hrun
    simp [run_selection_build, ht, hrun]
    rfl
  · intro p s hrun
    have hbuild : run_selection_build p s [] text = .error .noCommandSelected := by
      simp [run_selection_build, ht, hrun]
    refine ⟨hbuild, ?_⟩
    intro a
    simp [run_selection, parse_args, blank, hbuild]

/-- Witness for C4 at whitespace-only custom text, for the real catalog
and for a catalog without a "run" action. -/
theorem empty_inputs_default_run_fallback_witness :
    run_selection_build primary_specs secondary_specs [] "   " =
      .ok [⟨"run", ["run"], true, true⟩]
    ∧ run_selection_build [] [] [] "   " = .error .noCommandSelected
    ∧ run_selection none [] [] [] "" "" "   " =
      (none, some (.build .noCommandSelected)) := by
  have h := empty_inputs_default_run_fallback "   " (by rfl)
  have h2 := h.2.2 [] [] (by rfl)
  exact ⟨h.1, h2.1, h2.2 none⟩

/-- C5: at most one `RunSession` exists at any time.  A start request
with a (necessarily non-empty) queue while a session is active fails
with the already-running error and returns the slot unchanged — the
active run's cancellation flag, process-handle slot and queue progress
are untouched and the request is not queued or merged; every queue
`run_selection_build` accepts is non-empty; a second `run_selection`
against an occupied slot never changes the slot, whatever its inputs;
and the worker thread's body clears the session slot when it exits,
regardless of how the run ended. -/
theorem at_most_one_run_session :
    (∀ (a : ActiveRun) (queue : List QueuedCommand), queue ≠ [] →
      CommandRunner.start (some a) queue = (.error .alreadyRunning, some a))
    ∧ (∀ (p s : List CommandSpec) (sel : List SelectedCommand) (t : String)
        (q : List QueuedCommand), run_selection_build p s sel t = .ok q → q ≠ [])
    ∧ (∀ (a : ActiveRun) (p s : List CommandSpec) (sel : List SelectedCommand)
        (cT pT xT : String),
        (run_selection (some a) p s sel cT pT xT).1 = some a)
    ∧ (∀ (queue : List QueuedCommand) (cargoArgs progArgs : List String)
        (rel : Bool) (beh : Nat → JobBehavior) (cancel uiAlive : Nat → Bool),
        (worker_body queue cargoArgs progArgs rel beh cancel uiAlive).2 = none) := by
  refine ⟨?_, ?_, ?_, fun _ _ _ _ _ _ _ => rfl⟩
  · intro a queue hq
    simp [CommandRunner.start, hq]
  · exact fun p s sel t q h => run_selection_build_ne_nil p s sel t q h
  · intro a p s sel cT pT xT
    simp only [run_selection]
    split
    · rfl
    · split
      · rfl
      · split
        · rfl
        · split
          · next e st heq =>
            have h2 := congrArg Prod.snd heq
            rw [start_snd] at h2
            simpa using h2.symm
          · next st heq =>
            have h2 := congrArg Prod.snd heq
            rw [start_snd] at h2
            simpa using h2.symm

/-- Witness for C5 at a concrete occupied slot and the default run
queue. -/
theorem at_most_one_run_session_witness :
    CommandRunner.start (some ⟨false, some 7, 2⟩) [⟨"run", ["run"], true, true⟩] =
      (.error .alreadyRunning, some ⟨false, some 7, 2⟩)
    ∧ ([⟨"run", ["run"], true, true⟩] : List QueuedCommand) ≠ []
    ∧ (run_selection (some ⟨false, some 7, 2⟩) primary_specs secondary_specs
        [] "" "" "").1 = some ⟨false, some 7, 2⟩
    ∧ (worker_body [] [] [] false (fun _ => behOk) (fun _ => false)
        (fun _ => true)).2 = none := by
  refine ⟨at_most_one_run_session.1 _ _ (by simp), by simp, ?_, ?_⟩
  · exact at_most_one_run_session.2.2.1 _ primary_specs secondary_specs [] "" "" ""
  · exact at_most_one_run_session.2.2.2 [] [] [] false (fun _ => behOk)
      (fun _ => false) (fun _ => true)

/-- C10: the leading tool-name strip removes at most the first token and
only when it is exactly "cargo": custom text "cargo cargo build" keeps
the second "cargo" (fragments ["cargo", "build"]), a first token that
merely resembles "cargo" (such as "cargos") is kept, and tokens after
the first are passed through verbatim (the strip is the identity except
for dropping the head when it equals "cargo"). -/
theorem leading_cargo_token_strip (parts : List String) :
    (parts.head? = some "cargo" → strip_cargo_token parts = parts.tail)
    ∧ (parts.head? ≠ some "cargo" → strip_cargo_token parts = parts)
    ∧ run_selection_build primary_specs secondary_specs [] "cargo cargo build" =
        .ok [⟨"cargo build", ["cargo", "build"], false, true⟩]
    ∧ run_selection_build primary_specs secondary_specs [] "cargos build" =
        .ok [⟨"cargos build", ["cargos", "build"], false, true⟩] := by
  refine ⟨?_, ?_, by rfl, by rfl⟩
  · intro h
    simp [strip_cargo_token, h]
  · intro h
    simp [strip_cargo_token, h]

/-- Witness for C10 at the token lists ["cargo", "cargo", "build"] and
["cargos", "build"]. -/
theorem leading_cargo_token_strip_witness :
    strip_cargo_token ["cargo", "cargo", "build"] = ["cargo", "build"]
    ∧ strip_cargo_token ["cargos", "build"] = ["cargos", "build"] := by
  exact ⟨(leading_cargo_token_strip ["cargo", "cargo", "build"]).1 (by rfl),
    (leading_cargo_token_strip ["cargos", "build"]).2.1 (by simp)⟩

theorem reader_loop_job_tag (mk : String → String) (jobIdx : Nat)
    (cancel uiAlive : Nat → Bool) :
    ∀ (lines : List (Option String)) (t u : Nat) (h : HandOff),
      h ∈ (reader_loop mk jobIdx cancel uiAlive lines t u).1 →
      h.job = some jobIdx := by
  intro lines
  induction lines with
  | nil => intro t u h hmem; simp [reader_loop] at hmem
  | cons item rest ih =>
    intro t u h hmem
    by_cases hc : cancel t
    · simp [reader_loop, hc] at hmem
    · rcases item with _ | line
      · simp [reader_loop, hc] at hmem
      · simp only [reader_loop, hc, Bool.false_eq_true, if_false,
          List.mem_cons] at hmem
        rcases hmem with rfl | hmem2
        · rfl
        · exact ih _ _ h hmem2

theorem spawn_and_stream_job_tag (args : List String) (dn : String)
    (jobIdx : Nat) (beh : JobBehavior) (cancel uiAlive : Nat → Bool)
    (t u : Nat) (h : HandOff)
    (hmem : h ∈ (spawn_and_stream args dn jobIdx beh cancel uiAlive t u).events) :
    h.job = some jobIdx := by
  simp only [spawn_and_stream] at hmem
  split at hmem
  · simp at hmem
  · split at hmem
    · simp at hmem
    · split at hmem
      · simp at hmem
      · split at hmem
        · simp only [List.mem_append] at hmem
          rcases hmem with hm | hm
          · exact reader_loop_job_tag _ _ _ _ _ _ _ _ hm
          · exact reader_loop_job_tag _ _ _ _ _ _ _ _ hm
        · split at hmem <;>
          · simp only [List.mem_append] at hmem
            rcases hmem with hm | hm
            · exact reader_loop_job_tag _ _ _ _ _ _ _ _ hm
            · exact reader_loop_job_tag _ _ _ _ _ _ _ _ hm

theorem spawn_result_ok_success (args : List String) (dn : String)
    (jobIdx : Nat) (beh : JobBehavior) (cancel uiAlive : Nat → Bool)
    (t u : Nat) (st : ExitSt)
    (h : (spawn_and_stream args dn jobIdx beh cancel uiAlive t u).result = .ok st)
    (hs : st.success = true) : beh.failing = false := by
  simp only [spawn_and_stream] at h
  split at h
  · cases h
  · split at h
    · cases h
    · split at h
      · cases h
      · split at h
        · cases h
        · split at h
          · cases h
          · next hspawn hstdout hstderr hchild hwait =>
            injection h with h'
            subst h'
            simp only [JobBehavior.failing]
            simp_all

theorem run_queue_loop_fail_fast (rel : Bool) (cargoArgs progArgs : List String)
    (beh : Nat → JobBehavior) (cancel uiAlive : Nat → Bool) (total k j : Nat)
    (hfail : (beh k).failing = true) (hkj : k < j) :
    ∀ (jobs : List QueuedCommand) (idx t u : Nat), idx ≤ k →
      j ∉ (run_queue_loop rel cargoArgs progArgs beh cancel uiAlive total
        jobs idx t u).attempted
      ∧ ∀ h ∈ (run_queue_loop rel cargoArgs progArgs beh cancel uiAlive total
          jobs idx t u).events, h.job ≠ some j := by
  intro jobs
  induction jobs with
  | nil =>
    intro idx t u hik
    constructor
    · simp [run_queue_loop]
    · intro h hmem
      simp [run_queue_loop] at hmem
  | cons cmd rest ih =>
    intro idx t u hik
    have hij : idx ≠ j := by omega
    by_cases hc : cancel t
    · constructor
      · simp [run_queue_loop, hc]
      · intro h hmem
        simp [run_queue_loop, hc] at hmem
    · simp only [run_queue_loop, hc, Bool.false_eq_true, if_false]
      split <;> split
      · -- notice, status hand-off failed
        refine ⟨by simp, ?_⟩
        intro h hmem
        simp only [List.cons_append, List.nil_append, List.mem_cons,
          List.not_mem_nil, or_false] at hmem
        casesm* _ ∨ _ <;> (rename_i hmem; rw [hmem]; simp; omega)
      · -- notice, status delivered
        split
        · next st hst =>
          split
          · next hsucc =>
            have hne : idx ≠ k := by
              intro he2
              subst he2
              have h2 := spawn_result_ok_success _ _ _ _ _ _ _ _ _ hst hsucc
              rw [hfail] at h2
              cases h2
            obtain ⟨ha, he⟩ := ih (idx + 1) _ _ (by omega)
            refine ⟨?_, ?_⟩
            · simp only [List.mem_cons]
              rintro (rfl | hmem2)
              · exact hij rfl
              · exact ha hmem2
            · intro h hmem
              simp only [List.cons_append, List.nil_append, List.mem_cons,
                List.mem_append, List.not_mem_nil, or_false] at hmem
              casesm* _ ∨ _ <;>
                (rename_i hmem
                 first
                 | (rw [hmem]; simp; omega)
                 | (rw [spawn_and_stream_job_tag _ _ _ _ _ _ _ _ _ hmem]
                    simp; omega)
                 | exact he h hmem)
          · refine ⟨by simp only [List.mem_singleton]; omega, ?_⟩
            intro h hmem
            simp only [List.cons_append, List.nil_append, List.mem_cons,
              List.mem_append, List.not_mem_nil, or_false] at hmem
            casesm* _ ∨ _ <;>
              (rename_i hmem
               first
               | (rw [hmem]; simp; omega)
               | (rw [spawn_and_stream_job_tag _ _ _ _ _ _ _ _ _ hmem]
                  simp; omega))
        · refine ⟨by simp only [List.mem_singleton]; omega, ?_⟩
          intro h hmem
          simp only [List.cons_append, List.nil_append, List.mem_cons,
            List.mem_append, List.not_mem_nil, or_false] at hmem
          casesm* _ ∨ _ <;>
            (rename_i hmem
             first
             | (rw [hmem]; simp; omega)
             | (rw [spawn_and_stream_job_tag _ _ _ _ _ _ _ _ _ hmem]
                simp; omega))
      · -- no notice, status hand-off failed
        refine ⟨by simp, ?_⟩
        intro h hmem
        simp only [List.nil_append, List.mem_cons, List.not_mem_nil,
          or_false] at hmem
        rw [hmem]
        simp
        omega
      · -- no notice, status delivered
        split
        · next st hst =>
          split
          · next hsucc =>
            have hne : idx ≠ k := by
              intro he2
              subst he2
              have h2 := spawn_result_ok_success _ _ _ _ _ _ _ _ _ hst hsucc
              rw [hfail] at h2
              cases h2
            obtain ⟨ha, he⟩ := ih (idx + 1) _ _ (by omega)
            refine ⟨?_, ?_⟩
            · simp only [List.mem_cons]
              rintro (rfl | hmem2)
              · exact hij rfl
              · exact ha hmem2
            · intro h hmem
              simp only [List.cons_append, List.nil_append, List.mem_cons,
                List.mem_append, List.not_mem_nil, or_false] at hmem
              casesm* _ ∨ _ <;>
                (rename_i hmem
                 first
                 | (rw [hmem]; simp; omega)
                 | (rw [spawn_and_stream_job_tag _ _ _ _ _ _ _ _ _ hmem]
                    simp; omega)
                 | exact he h hmem)
          · refine ⟨by simp only [List.mem_singleton]; omega, ?_⟩
            intro h hmem
            simp only [List.cons_append, List.nil_append, List.mem_cons,
              List.mem_append, List.not_mem_nil, or_false] at hmem
            casesm* _ ∨ _ <;>
              (rename_i hmem
               first
               | (rw [hmem]; simp; omega)
               | (rw [spawn_and_stream_job_tag _ _ _ _ _ _ _ _ _ hmem]
                  simp; omega))
        · refine ⟨by simp only [List.mem_singleton]; omega, ?_⟩
          intro h hmem
          simp only [List.cons_append, List.nil_append, List.mem_cons,
            List.mem_append, List.not_mem_nil, or_false] at hmem
          casesm* _ ∨ _ <;>
            (rename_i hmem
             first
             | (rw [hmem]; simp; omega)
             | (rw [spawn_and_stream_job_tag _ _ _ _ _ _ _ _ _ hmem]
                simp; omega))

theorem run_queue_loop_failing_step (rel : Bool) (cargoArgs progArgs : List String)
    (beh : Nat → JobBehavior) (cancel uiAlive : Nat → Bool) (total : Nat)
    (cmd : QueuedCommand) (rest : List QueuedCommand) (idx t u : Nat)
    (hc : cancel t = false)
    (hui : uiAlive (if rel && !cmd.supports_release then u + 1 else u) = true)
    (hfail : (beh idx).failing = true) :
    (run_queue_loop rel cargoArgs progArgs beh cancel uiAlive total
      (cmd :: rest) idx t u).attempted = [idx]
    ∧ ∃ ho, (run_queue_loop rel cargoArgs progArgs beh cancel uiAlive total
        (cmd :: rest) idx t u).events.getLast? = some ho
      ∧ ho.job = some idx
      ∧ ((∃ d, ho.actions = [.appendLine (exit_fail_line cmd.display_name d)])
         ∨ (∃ m, ho.actions = [.appendLine (spawn_fail_line cmd.display_name m),
              .setStatus (failed_status m)])) := by
  simp only [run_queue_loop, hc, Bool.false_eq_true, if_false]
  rcases hrel : (rel && !cmd.supports_release) with _ | _ <;> rw [hrel] at hui <;>
    simp only [Bool.false_eq_true, if_false, if_true] at hui <;>
    simp only [hrel, Bool.false_eq_true, if_false, if_true, hui, Bool.not_true,
      Bool.true_eq_false] <;>
    split
  · next st hst =>
    have hns : st.success = false := by
      rcases hsu : st.success with _ | _
      · rfl
      · have h2 := spawn_result_ok_success _ _ _ _ _ _ _ _ _ hst hsu
        rw [hfail] at h2
        cases h2
    simp only [hns, Bool.false_eq_true, if_false]
    refine ⟨by first | rfl | trivial, _, List.getLast?_concat _, rfl,
      Or.inl ⟨st.descr, rfl⟩⟩
  · next e he2 =>
    refine ⟨by first | rfl | trivial, _, List.getLast?_concat _, rfl,
      Or.inr ⟨e.message, rfl⟩⟩
  · next st hst =>
    have hns : st.success = false := by
      rcases hsu : st.success with _ | _
      · rfl
      · have h2 := spawn_result_ok_success _ _ _ _ _ _ _ _ _ hst hsu
        rw [hfail] at h2
        cases h2
    simp only [hns, Bool.false_eq_true, if_false]
    refine ⟨by first | rfl | trivial, _, List.getLast?_concat _, rfl,
      Or.inl ⟨st.descr, rfl⟩⟩
  · next e he2 =>
    refine ⟨by first | rfl | trivial, _, List.getLast?_concat _, rfl,
      Or.inr ⟨e.message, rfl⟩⟩

theorem reader_loop_t_mono (mk : String → String) (jobIdx : Nat)
    (cancel uiAlive : Nat → Bool) :
    ∀ (lines : List (Option String)) (t u : Nat),
      t ≤ (reader_loop mk jobIdx cancel uiAlive lines t u).2.1 := by
  intro lines
  induction lines with
  | nil => intro t u; simp [reader_loop]
  | cons item rest ih =>
    intro t u
    by_cases hc : cancel t
    · simp [reader_loop, hc]
    · rcases item with _ | line
      · simp [reader_loop, hc]
      · simp only [reader_loop, hc, Bool.false_eq_true, if_false]
        exact le_trans (by omega) (ih (t + 1) (u + 1))

theorem spawn_t_mono (args : List String) (dn : String) (jobIdx : Nat)
    (beh : JobBehavior) (cancel uiAlive : Nat → Bool) (t u : Nat) :
    t ≤ (spawn_and_stream args dn jobIdx beh cancel uiAlive t u).tEnd := by
  have h1 := reader_loop_t_mono id jobIdx cancel uiAlive beh.stdoutLines t u
  have h2 := reader_loop_t_mono stderr_line jobIdx cancel uiAlive beh.stderrLines
    (reader_loop id jobIdx cancel uiAlive beh.stdoutLines t u).2.1
    (reader_loop id jobIdx cancel uiAlive beh.stdoutLines t u).2.2
  simp only [spawn_and_stream]
  split
  · simp
  · split
    · simp
    · split
      · simp
      · split
        · exact le_trans h1 h2
        · split
          · exact le_trans h1 h2
          · exact le_trans h1 h2

theorem run_queue_loop_t_mono (rel : Bool) (cargoArgs progArgs : List String)
    (beh : Nat → JobBehavior) (cancel uiAlive : Nat → Bool) (total : Nat) :
    ∀ (jobs : List QueuedCommand) (idx t u : Nat),
      t ≤ (run_queue_loop rel cargoArgs progArgs beh cancel uiAlive total
        jobs idx t u).tEnd := by
  intro jobs
  induction jobs with
  | nil => intro idx t u; simp [run_queue_loop]
  | cons cmd rest ih =>
    intro idx t u
    by_cases hc : cancel t
    · simp [run_queue_loop, hc]
    · simp only [run_queue_loop, hc, Bool.false_eq_true, if_false]
      have hs := spawn_t_mono (build_full_command cmd rel cargoArgs progArgs)
        cmd.display_name idx (beh idx) cancel uiAlive (t + 1)
      split <;> split
      · simp
      · split
        · next st hst =>
          split
          · exact le_trans (le_trans (by omega) (hs _)) (ih (idx + 1) _ _)
          · exact le_trans (by omega) (hs _)
        · exact le_trans (by omega) (hs _)
      · simp
      · split
        · next st hst =>
          split
          · exact le_trans (le_trans (by omega) (hs _)) (ih (idx + 1) _ _)
          · exact le_trans (by omega) (hs _)
        · exact le_trans (by omega) (hs _)

theorem run_queue_cancelled_before_start (queue : List QueuedCommand)
    (cargoArgs progArgs : List String) (rel : Bool) (beh : Nat → JobBehavior)
    (cancel uiAlive : Nat → Bool)
    (hmono : ∀ a b : Nat, a ≤ b → cancel a = true → cancel b = true)
    (hc0 : cancel 0 = true) (hui : uiAlive 0 = true) :
    (run_queue queue cargoArgs progArgs rel beh cancel uiAlive).attempted = []
    ∧ (run_queue queue cargoArgs progArgs rel beh cancel uiAlive).finalStatus =
      some "Cancelled" := by
  rcases queue with _ | ⟨cmd, rest⟩
  · simp [run_queue, run_queue_loop, hui, hc0]
  · simp [run_queue, run_queue_loop, hui, hc0, hmono 0 1 (by omega) hc0]

theorem spawn_joins_on_ok (args : List String) (dn : String) (jobIdx : Nat)
    (beh : JobBehavior) (cancel uiAlive : Nat → Bool) (t u : Nat) (st : ExitSt)
    (h : (spawn_and_stream args dn jobIdx beh cancel uiAlive t u).result = .ok st) :
    (spawn_and_stream args dn jobIdx beh cancel uiAlive t u).threadsStarted = true
    ∧ (spawn_and_stream args dn jobIdx beh cancel uiAlive t u).joinedStdout = true
    ∧ (spawn_and_stream args dn jobIdx beh cancel uiAlive t u).joinedStderr = true := by
  rcases hsp : beh.spawnErr with _ | msg
  · rcases hso : beh.hasStdout with _ | _
    · simp [spawn_and_stream, hsp, hso] at h
    · rcases hse : beh.hasStderr with _ | _
      · simp [spawn_and_stream, hsp, hso, hse] at h
      · rcases hcm : beh.childMissingAtWait with _ | _
        · rcases hw : beh.waitErr with _ | m
          · simp [spawn_and_stream, hsp, hso, hse, hcm, hw]
          · simp [spawn_and_stream, hsp, hso, hse, hcm, hw] at h
        · simp [spawn_and_stream, hsp, hso, hse, hcm] at h
  · simp [spawn_and_stream, hsp] at h

theorem reader_loop_ctl (mk : String → String) (jobIdx : Nat)
    (cancel : Nat → Bool) (U V : Nat → Bool) :
    ∀ (lines : List (Option String)) (t u : Nat),
      (reader_loop mk jobIdx cancel U lines t u).2 =
        (reader_loop mk jobIdx cancel V lines t u).2 := by
  intro lines
  induction lines with
  | nil => intro t u; rfl
  | cons item rest ih =>
    intro t u
    by_cases hc : cancel t
    · simp [reader_loop, hc]
    · rcases item with _ | line
      · simp [reader_loop, hc]
      · simp only [reader_loop, hc, Bool.false_eq_true, if_false]
        exact ih (t + 1) (u + 1)

theorem spawn_and_stream_ctl (args : List String) (dn : String) (jobIdx : Nat)
    (beh : JobBehavior) (cancel : Nat → Bool) (U V : Nat → Bool) (t u : Nat) :
    (spawn_and_stream args dn jobIdx beh cancel U t u).result =
      (spawn_and_stream args dn jobIdx beh cancel V t u).result
    ∧ (spawn_and_stream args dn jobIdx beh cancel U t u).tEnd =
      (spawn_and_stream args dn jobIdx beh cancel V t u).tEnd
    ∧ (spawn_and_stream args dn jobIdx beh cancel U t u).uEnd =
      (spawn_and_stream args dn jobIdx beh cancel V t u).uEnd := by
  have h1 := reader_loop_ctl id jobIdx cancel U V beh.stdoutLines t u
  rcases hsp : beh.spawnErr with _ | msg
  · rcases hso : beh.hasStdout with _ | _
    · simp [spawn_and_stream, hsp, hso]
    · rcases hse : beh.hasStderr with _ | _
      · simp [spawn_and_stream, hsp, hso, hse]
      · have h2 := reader_loop_ctl stderr_line jobIdx cancel U V beh.stderrLines
          (reader_loop id jobIdx cancel V beh.stdoutLines t u).2.1
          (reader_loop id jobIdx cancel V beh.stdoutLines t u).2.2
        rcases hcm : beh.childMissingAtWait with _ | _
        · rcases hw : beh.waitErr with _ | m
          · simp only [spawn_and_stream, hsp, hso, hse, hcm, hw, Bool.not_true,
              Bool.false_eq_true, if_false, h1, h2]
            exact ⟨by first | rfl | trivial, by first | rfl | trivial,
              by first | rfl | trivial⟩
          · simp only [spawn_and_stream, hsp, hso, hse, hcm, hw, Bool.not_true,
              Bool.false_eq_true, if_false, h1, h2]
            exact ⟨by first | rfl | trivial, by first | rfl | trivial,
              by first | rfl | trivial⟩
        · simp only [spawn_and_stream, hsp, hso, hse, hcm, Bool.not_true,
            Bool.false_eq_true, if_false, if_true, h1, h2]
          exact ⟨by first | rfl | trivial, by first | rfl | trivial,
            by first | rfl | trivial⟩
  · simp [spawn_and_stream, hsp]

theorem run_queue_loop_checked_ctl (rel : Bool) (cargoArgs progArgs : List String)
    (beh : Nat → JobBehavior) (cancel : Nat → Bool) (total : Nat) (U : Nat → Bool) :
    ∀ (jobs : List QueuedCommand) (idx t u : Nat),
      (∀ v ∈ (run_queue_loop rel cargoArgs progArgs beh cancel U total
        jobs idx t u).checked, U v = true) →
      (run_queue_loop rel cargoArgs progArgs beh cancel U total jobs idx t u).attempted =
        (run_queue_loop rel cargoArgs progArgs beh cancel (fun _ => true) total
          jobs idx t u).attempted := by
  intro jobs
  induction jobs with
  | nil => intro idx t u _; rfl
  | cons cmd rest ih =>
    intro idx t u hch
    by_cases hc : cancel t
    · simp [run_queue_loop, hc]
    · obtain ⟨hres, htE, huE⟩ := spawn_and_stream_ctl
        (build_full_command cmd rel cargoArgs progArgs) cmd.display_name idx
        (beh idx) cancel U (fun _ => true)
        (t + 1) ((if rel && !cmd.supports_release then u + 1 else u) + 1)
      rcases hrel : (rel && !cmd.supports_release) with _ | _
      · rw [hrel] at hres htE huE
        simp only [Bool.false_eq_true, if_false] at hres htE huE
        have hU1 : U u = true := by
          by_cases hB : U u = true
          · exact hB
          · rw [Bool.not_eq_true] at hB
            have hmem : u ∈ (run_queue_loop rel cargoArgs progArgs beh cancel U
                total (cmd :: rest) idx t u).checked := by
              simp only [run_queue_loop, hc, Bool.false_eq_true, if_false, hrel,
                hB, Bool.not_false, if_true]
              simp
            rw [hch u hmem] at hB
            cases hB
        simp only [run_queue_loop, hc, Bool.false_eq_true, if_false, hrel,
          hU1, Bool.not_true, Bool.true_eq_false, if_false] at hch ⊢
        rw [hres] at hch ⊢
        generalize hV : (spawn_and_stream
          (build_full_command cmd rel cargoArgs progArgs) cmd.display_name idx
          (beh idx) cancel (fun _ => true) (t + 1) (u + 1)).result = res at hch ⊢
        rcases res with e | st
        · rfl
        · rcases hsu : st.success with _ | _
          · simp only [hsu, Bool.false_eq_true, if_false] at hch ⊢
            try rfl
          · simp only [hsu, if_true] at hch ⊢
            rw [htE, huE] at hch ⊢
            rw [ih _ _ _ (fun v hv => hch v (List.mem_cons_of_mem _ hv))]
      · rw [hrel] at hres htE huE
        simp only [if_true] at hres htE huE
        have hU1 : U (u + 1) = true := by
          by_cases hB : U (u + 1) = true
          · exact hB
          · rw [Bool.not_eq_true] at hB
            have hmem : u + 1 ∈ (run_queue_loop rel cargoArgs progArgs beh cancel
                U total (cmd :: rest) idx t u).checked := by
              simp only [run_queue_loop, hc, Bool.false_eq_true, if_false, hrel,
                hB, Bool.not_false, if_true]
              simp
            rw [hch (u + 1) hmem] at hB
            cases hB
        simp only [run_queue_loop, hc, Bool.false_eq_true, if_false, hrel,
          hU1, Bool.not_true, Bool.true_eq_false, if_false, if_true] at hch ⊢
        rw [hres] at hch ⊢
        generalize hV : (spawn_and_stream
          (build_full_command cmd rel cargoArgs progArgs) cmd.display_name idx
          (beh idx) cancel (fun _ => true) (t + 1) (u + 1 + 1)).result = res at hch ⊢
        rcases res with e | st
        · rfl
        · rcases hsu : st.success with _ | _
          · simp only [hsu, Bool.false_eq_true, if_false] at hch ⊢
            try rfl
          · simp only [hsu, if_true] at hch ⊢
            rw [htE, huE] at hch ⊢
            rw [ih _ _ _ (fun v hv => hch v (List.mem_cons_of_mem _ hv))]

theorem run_queue_checked_ctl (queue : List QueuedCommand)
    (cargoArgs progArgs : List String) (rel : Bool) (beh : Nat → JobBehavior)
    (cancel : Nat → Bool) (U : Nat → Bool)
    (hch : ∀ v ∈ (run_queue queue cargoArgs progArgs rel beh cancel U).checked,
      U v = true) :
    (run_queue queue cargoArgs progArgs rel beh cancel U).attempted =
      (run_queue queue cargoArgs progArgs rel beh cancel (fun _ => true)).attempted := by
  have hU0 : U 0 = true := by
    by_cases hB : U 0 = true
    · exact hB
    · rw [Bool.not_eq_true] at hB
      have hmem : 0 ∈ (run_queue queue cargoArgs progArgs rel beh cancel U).checked := by
        simp [run_queue, hB]
      rw [hch 0 hmem] at hB
      cases hB
  simp only [run_queue, hU0, Bool.not_true, Bool.true_eq_false, if_false] at hch ⊢
  exact run_queue_loop_checked_ctl rel cargoArgs progArgs beh cancel
    queue.length U queue 0 0 1 (fun v hv => hch v (List.mem_cons_of_mem _ hv))

/-- C6: for every job queue in which the job at index k exits with a
non-success status or fails to spawn (or stream setup, handle reclaim or
wait fails), jobs k+1..N are never spawned and produce no output: no
later index is ever attempted and no hand-off in the whole run's trace
is attributed to a later job, while earlier jobs' hand-offs stay in the
trace.  Moreover, when such a failing job is reached with the flag clear
and the Observer alive, the queue loop attempts exactly that job and its
trace ends with the failure report hand-off for it. -/
theorem fail_fast_halts_queue (queue : List QueuedCommand)
    (cargoArgs progArgs : List String) (rel : Bool) (beh : Nat → JobBehavior)
    (cancel uiAlive : Nat → Bool) (k j : Nat)
    (hfail : (beh k).failing = true) (hkj : k < j) :
    (j ∉ (run_queue queue cargoArgs progArgs rel beh cancel uiAlive).attempted
     ∧ ∀ h ∈ (run_queue queue cargoArgs progArgs rel beh cancel uiAlive).events,
        h.job ≠ some j)
    ∧ (∀ (cmd : QueuedCommand) (rest : List QueuedCommand) (total idx t u : Nat),
        cancel t = false →
        uiAlive (if rel && !cmd.supports_release then u + 1 else u) = true →
        (beh idx).failing = true →
        (run_queue_loop rel cargoArgs progArgs beh cancel uiAlive total
          (cmd :: rest) idx t u).attempted = [idx]
        ∧ ∃ ho, (run_queue_loop rel cargoArgs progArgs beh cancel uiAlive total
            (cmd :: rest) idx t u).events.getLast? = some ho
          ∧ ho.job = some idx
          ∧ ((∃ d, ho.actions = [.appendLine (exit_fail_line cmd.display_name d)])
             ∨ (∃ m, ho.actions =
                  [.appendLine (spawn_fail_line cmd.display_name m),
                   .setStatus (failed_status m)]))) := by
  constructor
  · obtain ⟨ha, he⟩ := run_queue_loop_fail_fast rel cargoArgs progArgs beh cancel
      uiAlive queue.length k j hfail hkj queue 0 0 1 (Nat.zero_le k)
    simp only [run_queue]
    split
    · constructor
      · simp
      · intro h hmem
        simp only [List.mem_singleton] at hmem
        rw [hmem]
        simp
    · constructor
      · exact ha
      · intro h hmem
        simp only [List.mem_cons, List.mem_append, List.mem_singleton,
          List.not_mem_nil, or_false] at hmem
        rcases hmem with rfl | hm | rfl
        · simp
        · exact he h hm
        · simp
  · intro cmd rest total idx t u hc hui hf
    exact run_queue_loop_failing_step rel cargoArgs progArgs beh cancel uiAlive
      total cmd rest idx t u hc hui hf

/-- Witness for C6: with job 0 exiting non-zero in a two-job queue, job 1
is not attempted and no hand-off is attributed to it; the loop at the
failing job attempts exactly it and ends with its failure line. -/
theorem fail_fast_halts_queue_witness :
    1 ∉ (run_queue [⟨"build", ["build"], true, false⟩, ⟨"test", ["test"], true, true⟩]
      [] [] false (fun _ => behFail) (fun _ => false) (fun _ => true)).attempted
    ∧ (run_queue_loop false [] [] (fun _ => behFail) (fun _ => false)
        (fun _ => true) 2 [⟨"build", ["build"], true, false⟩] 0 0 1).attempted = [0] := by
  constructor
  · exact (fail_fast_halts_queue _ [] [] false (fun _ => behFail) (fun _ => false)
      (fun _ => true) 0 1 (by rfl) (by omega)).1.1
  · exact ((fail_fast_halts_queue [] [] [] false (fun _ => behFail)
      (fun _ => false) (fun _ => true) 0 1 (by rfl) (by omega)).2
      ⟨"build", ["build"], true, false⟩ [] 2 0 0 1 (by rfl) (by rfl) (by rfl)).1

/-- C7: cancellation is checked before every job: a set flag at the
pre-job read stops that job and all later ones with no hand-off and no
spawn; the loop's read clock never decreases, so under a monotone flag
(the writer only ever stores true) every later check observes a set
flag; and a flag set before the run's first read yields zero attempted
jobs and final status "Cancelled". -/
theorem cancellation_stops_spawns (queue : List QueuedCommand)
    (cargoArgs progArgs : List String) (rel : Bool) (beh : Nat → JobBehavior)
    (cancel uiAlive : Nat → Bool) :
    (∀ (cmd : QueuedCommand) (rest : List QueuedCommand) (total idx t u : Nat),
      cancel t = true →
      run_queue_loop rel cargoArgs progArgs beh cancel uiAlive total
        (cmd :: rest) idx t u = ⟨[], [], [], t + 1, u⟩)
    ∧ (∀ (jobs : List QueuedCommand) (total idx t u : Nat),
        t ≤ (run_queue_loop rel cargoArgs progArgs beh cancel uiAlive total
          jobs idx t u).tEnd)
    ∧ ((∀ a b : Nat, a ≤ b → cancel a = true → cancel b = true) →
        cancel 0 = true → uiAlive 0 = true →
        (run_queue queue cargoArgs progArgs rel beh cancel uiAlive).attempted = []
        ∧ (run_queue queue cargoArgs progArgs rel beh cancel uiAlive).finalStatus =
          some "Cancelled") := by
  refine ⟨?_, ?_, ?_⟩
  · intro cmd rest total idx t u hc
    simp [run_queue_loop, hc]
  · intro jobs total idx t u
    exact run_queue_loop_t_mono rel cargoArgs progArgs beh cancel uiAlive total
      jobs idx t u
  · intro hmono hc0 hui
    exact run_queue_cancelled_before_start queue cargoArgs progArgs rel beh
      cancel uiAlive hmono hc0 hui

/-- Witness for C7: a flag already set when the run starts spawns
nothing and ends "Cancelled". -/
theorem cancellation_stops_spawns_witness :
    run_queue_loop false [] [] (fun _ => behOk) (fun _ => true) (fun _ => true)
      1 [⟨"run", ["run"], true, true⟩] 0 0 1 = ⟨[], [], [], 1, 1⟩
    ∧ (run_queue [⟨"run", ["run"], true, true⟩] [] [] false (fun _ => behOk)
        (fun _ => true) (fun _ => true)).attempted = []
    ∧ (run_queue [⟨"run", ["run"], true, true⟩] [] [] false (fun _ => behOk)
        (fun _ => true) (fun _ => true)).finalStatus = some "Cancelled" := by
  have h := cancellation_stops_spawns [⟨"run", ["run"], true, true⟩] [] [] false
    (fun _ => behOk) (fun _ => true) (fun _ => true)
  have h3 := h.2.2 (fun a b _ hx => hx) (by rfl) (by rfl)
  exact ⟨h.1 ⟨"run", ["run"], true, true⟩ [] 1 0 0 1 (by rfl), h3.1, h3.2⟩

/-- C8 counterexample: after both reader threads have started, a failing
`wait` call makes `spawn_and_stream` return through `?` without joining
either reader loop, contradicting the claim that every return after
thread start joins both loops. -/
theorem spawn_and_stream_join_skipped_on_wait_failure :
    (spawn_and_stream ["build"] "build" 0 behWaitFail (fun _ => false)
      (fun _ => true) 0 0).threadsStarted = true
    ∧ (spawn_and_stream ["build"] "build" 0 behWaitFail (fun _ => false)
        (fun _ => true) 0 0).joinedStdout = false
    ∧ (spawn_and_stream ["build"] "build" 0 behWaitFail (fun _ => false)
        (fun _ => true) 0 0).joinedStderr = false
    ∧ (spawn_and_stream ["build"] "build" 0 behWaitFail (fun _ => false)
        (fun _ => true) 0 0).result = .error (.waitFailed "wait failed") := by
  exact ⟨rfl, rfl, rfl, rfl⟩

/-- C8 (amended): both reader loops are joined before `spawn_and_stream`
returns whenever it returns an exit status (the `Ok` path); on the error
returns taken after the threads started — empty handle slot at wait
time, or `wait` failure — the function returns without joining them. -/
theorem reader_loops_joined_on_ok_return (args : List String) (dn : String)
    (jobIdx : Nat) (beh : JobBehavior) (cancel uiAlive : Nat → Bool)
    (t u : Nat) :
    (∀ st, (spawn_and_stream args dn jobIdx beh cancel uiAlive t u).result = .ok st →
      (spawn_and_stream args dn jobIdx beh cancel uiAlive t u).threadsStarted = true
      ∧ (spawn_and_stream args dn jobIdx beh cancel uiAlive t u).joinedStdout = true
      ∧ (spawn_and_stream args dn jobIdx beh cancel uiAlive t u).joinedStderr = true)
    ∧ (beh.spawnErr = none → beh.hasStdout = true → beh.hasStderr = true →
        (beh.childMissingAtWait = true ∨ beh.waitErr.isSome = true) →
        (spawn_and_stream args dn jobIdx beh cancel uiAlive t u).threadsStarted = true
        ∧ (spawn_and_stream args dn jobIdx beh cancel uiAlive t u).joinedStdout = false
        ∧ (spawn_and_stream args dn jobIdx beh cancel uiAlive t u).joinedStderr = false) := by
  constructor
  · intro st h
    exact spawn_joins_on_ok args dn jobIdx beh cancel uiAlive t u st h
  · intro hsp hso hse hlate
    rcases hcm : beh.childMissingAtWait with _ | _
    · rcases hw : beh.waitErr with _ | m
      · rcases hlate with hl | hl
        · rw [hcm] at hl
          cases hl
        · rw [hw] at hl
          cases hl
      · simp [spawn_and_stream, hsp, hso, hse, hcm, hw]
    · simp [spawn_and_stream, hsp, hso, hse, hcm]

/-- Witness for C8 (amended) at a successful behaviour and at the
wait-failure behaviour. -/
theorem reader_loops_joined_on_ok_return_witness :
    (spawn_and_stream ["run"] "run" 0 behOk (fun _ => false) (fun _ => true)
      0 0).joinedStdout = true
    ∧ (spawn_and_stream ["run"] "run" 0 behOk (fun _ => false) (fun _ => true)
        0 0).joinedStderr = true
    ∧ (spawn_and_stream ["run"] "run" 0 behWaitFail (fun _ => false)
        (fun _ => true) 0 0).joinedStdout = false := by
  have h1 := (reader_loops_joined_on_ok_return ["run"] "run" 0 behOk
    (fun _ => false) (fun _ => true) 0 0).1 ⟨true, "exit status: 0"⟩ (by rfl)
  have h2 := (reader_loops_joined_on_ok_return ["run"] "run" 0 behWaitFail
    (fun _ => false) (fun _ => true) 0 0).2 (by rfl) (by rfl) (by rfl)
    (Or.inr (by rfl))
  exact ⟨h1.2.1, h1.2.2, h2.2.1⟩

/-- C9 counterexample: with the Observer alive for the initial hand-off
but gone from the next hand-off on, the first per-job progress-status
hand-off fails and the queue loop breaks: a two-job queue of healthy
jobs attempts nothing, although the failed hand-off was not the run's
initial notification (the claim predicts the queue continues to its
normal conclusion, which for this input is attempting jobs 0 and 1). -/
theorem observer_loss_midrun_stops_queue :
    (fun u => decide (u = 0)) 0 = true
    ∧ (run_queue [⟨"run", ["run"], true, true⟩, ⟨"run", ["run"], true, true⟩]
        [] [] false (fun _ => behOk) (fun _ => false)
        (fun u => decide (u = 0))).earlyReturn = false
    ∧ (run_queue [⟨"run", ["run"], true, true⟩, ⟨"run", ["run"], true, true⟩]
        [] [] false (fun _ => behOk) (fun _ => false)
        (fun u => decide (u = 0))).attempted = []
    ∧ (run_queue [⟨"run", ["run"], true, true⟩, ⟨"run", ["run"], true, true⟩]
        [] [] false (fun _ => behOk) (fun _ => false)
        (fun _ => true)).attempted = [0, 1] := by
  exact ⟨rfl, rfl, rfl, rfl⟩

/-- C9 (amended): a failed hand-off to the Observer silently stops that
update but does not abort the run logic's control flow, except at the
two checked hand-offs: the initial running/clear/status notification
(whose failure returns without processing any job and without a final
status) and a per-job progress-status notification (whose failure stops
the queue before spawning that job; the final status hand-off is still
attempted).  Failures of all other hand-offs (release notices, output
lines, summaries, the final status) leave the set of attempted jobs
exactly as if the Observer had stayed alive. -/
theorem observer_loss_control_flow (queue : List QueuedCommand)
    (cargoArgs progArgs : List String) (rel : Bool) (beh : Nat → JobBehavior)
    (cancel uiAlive : Nat → Bool) :
    (uiAlive 0 = false →
      run_queue queue cargoArgs progArgs rel beh cancel uiAlive =
        ⟨[⟨[.setRunning true, .setOutput "",
            .setStatus (running_status queue.length)], false, none⟩],
          [], [0], true, none, 0, 1⟩)
    ∧ (∀ (cmd : QueuedCommand) (rest : List QueuedCommand) (total idx t u : Nat),
        cancel t = false →
        uiAlive (if rel && !cmd.supports_release then u + 1 else u) = false →
        (run_queue_loop rel cargoArgs progArgs beh cancel uiAlive total
          (cmd :: rest) idx t u).attempted = [])
    ∧ (uiAlive 0 = true →
        ((run_queue queue cargoArgs progArgs rel beh cancel uiAlive).finalStatus).isSome
          = true)
    ∧ ((∀ v ∈ (run_queue queue cargoArgs progArgs rel beh cancel uiAlive).checked,
          uiAlive v = true) →
        (run_queue queue cargoArgs progArgs rel beh cancel uiAlive).attempted =
          (run_queue queue cargoArgs progArgs rel beh cancel (fun _ => true)).attempted) := by
  refine ⟨?_, ?_, ?_, ?_⟩
  · intro h0
    simp [run_queue, h0]
  · intro cmd rest total idx t u hc hui
    simp only [run_queue_loop, hc, Bool.false_eq_true, if_false]
    rcases hrel : (rel && !cmd.supports_release) with _ | _ <;> rw [hrel] at hui <;>
      simp only [Bool.false_eq_true, if_false, if_true] at hui <;>
      simp [hrel, hui]
  · intro h0
    simp [run_queue, h0]
  · intro hch
    exact run_queue_checked_ctl queue cargoArgs progArgs rel beh cancel uiAlive hch

/-- Witness for C9 (amended) at concrete runs: an Observer gone from the
start, a first-status failure, a completed run's final status, and the
independence conjunct at the always-alive Observer. -/
theorem observer_loss_control_flow_witness :
    run_queue [⟨"run", ["run"], true, true⟩] [] [] false (fun _ => behOk)
      (fun _ => false) (fun _ => false) =
      ⟨[⟨[.setRunning true, .setOutput "", .setStatus (running_status 1)],
        false, none⟩], [], [0], true, none, 0, 1⟩
    ∧ (run_queue_loop false [] [] (fun _ => behOk) (fun _ => false)
        (fun _ => false) 1 [⟨"run", ["run"], true, true⟩] 0 0 1).attempted = []
    ∧ ((run_queue [⟨"run", ["run"], true, true⟩] [] [] false (fun _ => behOk)
        (fun _ => false) (fun _ => true)).finalStatus).isSome = true
    ∧ (run_queue [⟨"run", ["run"], true, true⟩] [] [] false (fun _ => behOk)
        (fun _ => false) (fun _ => true)).attempted =
      (run_queue [⟨"run", ["run"], true, true⟩] [] [] false (fun _ => behOk)
        (fun _ => false) (fun _ => true)).attempted := by
  have h := observer_loss_control_flow [⟨"run", ["run"], true, true⟩] [] []
    false (fun _ => behOk) (fun _ => false) (fun _ => false)
  have h2 := observer_loss_control_flow [⟨"run", ["run"], true, true⟩] [] []
    false (fun _ => behOk) (fun _ => false) (fun _ => true)
  exact ⟨h.1 (by rfl),
    h.2.1 ⟨"run", ["run"], true, true⟩ [] 1 0 0 1 (by rfl) (by rfl),
    h2.2.2.1 (by rfl),
    h2.2.2.2 (by intro v _; rfl)⟩

end CargUI
